import Mathlib

/-!
Shallow embedding of the stock-dashboard frontend (`src/frontend/src/App.tsx`)
and verification of its behavioral specification.

The component keeps per-symbol state in three string-keyed maps (`dataMap`,
`loadingMap`, `errorMap`) plus a watchlist, a chart-selection set, a sort flag,
a search query and a suggestion list.  Network interaction is embedded by
passing the (already completed) response of each request as an explicit value:
`fetchStock` below is the state transformer describing one completed run of
the source's `fetchStock` (its synchronous prologue, the `try`/`catch` body and
the `finally` clause), `fetchSuggestions` one completed run of the source's
`fetchSuggestions`.

Numeric values (`close` prices, derived from `parseFloat`) are embedded as
rationals; timestamp keys are embedded by the integer `new Date(t).getTime()`
value the source sorts by.
-/

/-- One parsed sample of the intraday series: the source's
`TimePoint { time: string; close: number }`, with `time` embedded as the
epoch-milliseconds value `new Date(time).getTime()` used for sorting. -/
structure TimePoint where
  time : Nat
  close : ℚ
deriving DecidableEq

/-- The source's `StockData`: per-symbol snapshot stored in `dataMap` on a
successful fetch. -/
structure StockData where
  symbol : String
  latestClose : ℚ
  changePct : ℚ
  history : List TimePoint
deriving DecidableEq

/-- The source's `SearchMatch { symbol: string; name: string }`, the projection
of a raw best-match object by `m["1. symbol"]` and `m["2. name"]`. -/
structure SearchMatch where
  symbol : String
  name : String
deriving DecidableEq

deriving instance DecidableEq for Except

/-- The component state held by the `useState` hooks of `App`.  The three
per-symbol records are embedded as total functions: a key absent from a JS
record reads as `undefined`, embedded as `none` (for `dataMap`, `errorMap`)
and as `false` (for `loadingMap`, where the source only tests truthiness). -/
structure AppState where
  symbols : List String
  dataMap : String → Option StockData
  loadingMap : String → Bool
  errorMap : String → Option String
  selected : List String
  sortAsc : Bool
  query : String
  suggestions : List SearchMatch

/-- The initial hook values: `['AAPL']`, empty maps, empty selection,
ascending sort, empty query, no suggestions. -/
def initState : AppState :=
  { symbols := ["AAPL"]
    dataMap := fun _ => none
    loadingMap := fun _ => false
    errorMap := fun _ => none
    selected := []
    sortAsc := true
    query := ""
    suggestions := [] }

/-- Completed outcome of the `axios.get(DATA_API, ...)` call in `fetchStock`:
either the transport threw (with an error message), or it returned a response
whose `res.data["Time Series (5min)"]` field is absent/falsy (`none`) or is an
object whose `Object.entries` enumeration yields the given list of
(timestamp, parsed close) pairs in insertion order. -/
inductive FetchResponse where
  | netError (msg : String)
  | payload (rawSeries : Option (List (Nat × ℚ)))
deriving DecidableEq

/-- Comparator of the `points.sort((a, b) => new Date(a.time).getTime() -
new Date(b.time).getTime())` call: `a` sorts no later than `b` iff the
comparator is ≤ 0. -/
def ptLe (a b : TimePoint) : Bool :=
  a.time ≤ b.time

/-- The `points` array of `fetchStock`: map the raw entries to `TimePoint`s
and sort ascending by timestamp.  `Array.prototype.sort` with a consistent
comparator is a stable sort, embedded by `List.mergeSort`. -/
def parsePoints (raw : List (Nat × ℚ)) : List TimePoint :=
  (raw.map fun e => ⟨e.1, e.2⟩).mergeSort ptLe

/-- JavaScript array indexing `l[i]` for a possibly negative index:
out-of-range access yields `undefined`, embedded as `none`. -/
def jsGet (l : List TimePoint) (i : Int) : Option TimePoint :=
  if i < 0 then none else l[i.toNat]?

/-- Message of the `TypeError` raised by reading `.close` from `undefined`
when `points[points.length - 1]` or `points[points.length - 2]` is
out of range (fewer than two samples). -/
def undefinedCloseMsg : String :=
  "Cannot read properties of undefined reading close"

/-- Lines 77-88 of `fetchStock`: `last = points[points.length - 1]`,
`prev = points[points.length - 2]`, `changePct = ((last.close - prev.close) /
prev.close) * 100`, and the `StockData` value passed to `setDataMap`.
Reading `.close` from an out-of-range (`undefined`) element throws, which the
surrounding `try` converts into the error case. -/
def computeSnapshot (sym : String) (points : List TimePoint) : Except String StockData :=
  match jsGet points ((points.length : Int) - 1), jsGet points ((points.length : Int) - 2) with
  | some last, some prev =>
      .ok { symbol := sym
            latestClose := last.close
            changePct := (last.close - prev.close) / prev.close * 100
            history := points }
  | _, _ => .error undefinedCloseMsg

/-- Outcome of the `try` body of `fetchStock` for symbol `sym` given the
completed response: a thrown transport error propagates its message, a missing
series field throws `"No data for " + sym`, otherwise the snapshot is computed
from the parsed, sorted points. -/
def fetchOutcome (sym : String) (resp : FetchResponse) : Except String StockData :=
  match resp with
  | .netError msg => .error msg
  | .payload none => .error ("No data for " ++ sym)
  | .payload (some raw) => computeSnapshot sym (parsePoints raw)

/-- Synchronous prologue of `fetchStock`: `setLoadingMap(m => ({...m, [sym]:
true}))` and `setErrorMap(m => ({...m, [sym]: ""}))`. -/
def fetchStart (sym : String) (st : AppState) : AppState :=
  { st with
    loadingMap := fun s => if s = sym then true else st.loadingMap s
    errorMap := fun s => if s = sym then some "" else st.errorMap s }

/-- Continuation of `fetchStock` after the `try` body resolves: on success
`setDataMap` stores the snapshot under `sym`; on failure the `catch` records
`e.message` under `sym` in `errorMap` and deletes `sym` from `dataMap`; the
`finally` always sets `loadingMap[sym] = false`. -/
def applyOutcome (sym : String) (out : Except String StockData) (st : AppState) : AppState :=
  match out with
  | .ok d =>
      { st with
        dataMap := fun s => if s = sym then some d else st.dataMap s
        loadingMap := fun s => if s = sym then false else st.loadingMap s }
  | .error msg =>
      { st with
        errorMap := fun s => if s = sym then some msg else st.errorMap s
        dataMap := fun s => if s = sym then none else st.dataMap s
        loadingMap := fun s => if s = sym then false else st.loadingMap s }

/-- One completed run of `fetchStock(sym)` under the given response. -/
def fetchStock (sym : String) (resp : FetchResponse) (st : AppState) : AppState :=
  applyOutcome sym (fetchOutcome sym resp) (fetchStart sym st)

/-- The fetch-trigger rule of the `useEffect` hook: a fetch is initiated for
`sym` iff `sym` is in the watchlist and `!dataMap[sym] && !loadingMap[sym]`. -/
def shouldFetch (st : AppState) (sym : String) : Prop :=
  sym ∈ st.symbols ∧ st.dataMap sym = none ∧ st.loadingMap sym = false

instance (st : AppState) (sym : String) : Decidable (shouldFetch st sym) := by
  unfold shouldFetch; infer_instance

/-- Completed outcome of the `axios.get(SEARCH_API, ...)` call in
`fetchSuggestions`: a thrown error, or a response whose `res.data.bestMatches`
field is absent/falsy (`none`) or a list of matches already projected to
(symbol, name) pairs in response order. -/
inductive SearchResponse where
  | failure
  | success (bestMatches : Option (List SearchMatch))
deriving DecidableEq

/-- One completed run of `fetchSuggestions`: on success, `matches =
res.data.bestMatches || []` is mapped to (symbol, name) pairs and
`setSuggestions(list.slice(0, 5))` keeps the first five; the `catch` sets the
suggestion list to `[]` and touches nothing else. -/
def fetchSuggestions (resp : SearchResponse) (st : AppState) : AppState :=
  match resp with
  | .failure => { st with suggestions := [] }
  | .success none => { st with suggestions := [] }
  | .success (some ms) => { st with suggestions := ms.take 5 }

/-- The `handleQueryChange` handler: `setQuery(v)`, then if `v.length >= 2`
issue a suggestion request for `v` (returned as `some v`), else
`setSuggestions([])` immediately and issue no request (`none`). -/
def handleQueryChange (v : String) (st : AppState) : AppState × Option String :=
  if 2 ≤ v.length then ({ st with query := v }, some v)
  else ({ st with query := v, suggestions := [] }, none)

/-- The `handleAdd` handler: append `sym` to the watchlist unless
`symbols.includes(sym)`, then clear the query and the suggestion list. -/
def handleAdd (sym : String) (st : AppState) : AppState :=
  { st with
    symbols := if st.symbols.contains sym then st.symbols else st.symbols ++ [sym]
    query := ""
    suggestions := [] }

/-- Price used by the sort comparator: `dataMap[sym].latestClose`.  The
comparator is only ever applied to symbols that passed the
`dataMap[sym]` filter, so the default for an absent snapshot is never
reached by `sortedRows`. -/
def priceOf (st : AppState) (sym : String) : ℚ :=
  match st.dataMap sym with
  | some d => d.latestClose
  | none => 0

/-- Comparator of the `sorted` memo: ascending by `latestClose` when
`sortAsc`, descending otherwise (`a` sorts no later than `b` iff the numeric
comparator value is ≤ 0). -/
def rowLe (st : AppState) (a b : String) : Bool :=
  if st.sortAsc then priceOf st a ≤ priceOf st b else priceOf st b ≤ priceOf st a

/-- The `sorted` memo: `symbols.filter(sym => dataMap[sym]).sort(...)`. -/
def sortedRows (st : AppState) : List String :=
  (st.symbols.filter fun sym => (st.dataMap sym).isSome).mergeSort (rowLe st)

/-- Modelled from the spec: the length of the user text after discarding
leading and trailing whitespace ("the trimmed length of the text").  The
source itself never trims; this definition exists only to compare the spec's
trimmed-length condition with the source's untrimmed one. -/
def trimmedLength (s : String) : Nat :=
  ((s.toList.dropWhile Char.isWhitespace).reverse.dropWhile Char.isWhitespace).length

/-- The mock intraday series of the spec's scenario: closes 100.00, 101.00,
99.00 at ascending times t1 < t2 < t3. -/
def demoRaw : List (Nat × ℚ) :=
  [(1, 100), (2, 101), (3, 99)]

/-- An intraday series with a single sample (insufficient history). -/
def oneSample : List (Nat × ℚ) :=
  [(1, 100)]

/-- The two mocked search matches of the spec's scenario. -/
def demoMatches : List SearchMatch :=
  [⟨"AAPL", "Apple Inc"⟩, ⟨"APLE", "Apple Hospitality"⟩]

/-! ### Helper lemmas -/

/-- The parsed point list is pairwise ordered by the sort comparator. -/
theorem parsePoints_pairwise (raw : List (Nat × ℚ)) :
    (parsePoints raw).Pairwise (fun a b => ptLe a b = true) :=
  List.sorted_mergeSort
    (fun a b c h1 h2 => by
      simp only [ptLe, decide_eq_true_eq] at *; omega)
    (fun a b => by
      simp only [ptLe, Bool.or_eq_true, decide_eq_true_eq]; omega)
    _

/-- A successful JavaScript read of the final element is a `getLast?`. -/
theorem jsGet_last_eq (l : List TimePoint) (x : TimePoint)
    (h : jsGet l ((l.length : Int) - 1) = some x) : l.getLast? = some x := by
  unfold jsGet at h
  by_cases h0 : (l.length : Int) - 1 < 0
  · rw [if_pos h0] at h; cases h
  · rw [if_neg h0] at h
    have ht : ((l.length : Int) - 1).toNat = l.length - 1 := by omega
    rw [ht] at h
    rw [List.getLast?_eq_getElem?]
    exact h

/-! ### C1: percent-change formula -/

/-- C1: for every symbol whose fetch succeeds with a parsed history of length
at least two, the outcome (and the snapshot stored in `dataMap`) has
`changePct = (last.close - prev.close) / prev.close * 100` and
`latestClose = last.close`, where `last` and `prev` are the chronologically
last and second-to-last samples of the ascending-sorted series. -/
theorem changePct_formula (sym : String) (raw : List (Nat × ℚ)) (st : AppState)
    (last prev : TimePoint)
    (hlen : 2 ≤ (parsePoints raw).length)
    (hlast : (parsePoints raw).getLast? = some last)
    (hprev : (parsePoints raw)[(parsePoints raw).length - 2]? = some prev) :
    fetchOutcome sym (.payload (some raw)) =
      .ok { symbol := sym
            latestClose := last.close
            changePct := (last.close - prev.close) / prev.close * 100
            history := parsePoints raw } ∧
    (fetchStock sym (.payload (some raw)) st).dataMap sym =
      some { symbol := sym
             latestClose := last.close
             changePct := (last.close - prev.close) / prev.close * 100
             history := parsePoints raw } := by
  have h1 : jsGet (parsePoints raw) (((parsePoints raw).length : Int) - 1) = some last := by
    unfold jsGet
    rw [if_neg (by omega : ¬ ((parsePoints raw).length : Int) - 1 < 0)]
    have ht : (((parsePoints raw).length : Int) - 1).toNat = (parsePoints raw).length - 1 := by
      omega
    rw [ht, ← List.getLast?_eq_getElem?]
    exact hlast
  have h2 : jsGet (parsePoints raw) (((parsePoints raw).length : Int) - 2) = some prev := by
    unfold jsGet
    rw [if_neg (by omega : ¬ ((parsePoints raw).length : Int) - 2 < 0)]
    have ht : (((parsePoints raw).length : Int) - 2).toNat = (parsePoints raw).length - 2 := by
      omega
    rw [ht]
    exact hprev
  have hout : fetchOutcome sym (.payload (some raw)) =
      .ok { symbol := sym
            latestClose := last.close
            changePct := (last.close - prev.close) / prev.close * 100
            history := parsePoints raw } := by
    simp only [fetchOutcome, computeSnapshot]
    rw [h1, h2]
  refine ⟨hout, ?_⟩
  simp [fetchStock, applyOutcome, hout]

unseal List.merge List.mergeSort in
/-- C1 witness: the spec scenario.  The mock series with closes 100.00,
101.00, 99.00 at ascending times yields `latestClose = 99` and
`changePct = ((99 - 101) / 101) * 100`. -/
theorem changePct_formula_witness :
    2 ≤ (parsePoints demoRaw).length ∧
    (parsePoints demoRaw).getLast? = some ⟨3, 99⟩ ∧
    (parsePoints demoRaw)[(parsePoints demoRaw).length - 2]? = some ⟨2, 101⟩ ∧
    (fetchOutcome "AAPL" (.payload (some demoRaw)) =
      .ok { symbol := "AAPL"
            latestClose := 99
            changePct := ((99 : ℚ) - 101) / 101 * 100
            history := parsePoints demoRaw } ∧
    (fetchStock "AAPL" (.payload (some demoRaw)) initState).dataMap "AAPL" =
      some { symbol := "AAPL"
             latestClose := 99
             changePct := ((99 : ℚ) - 101) / 101 * 100
             history := parsePoints demoRaw }) :=
  ⟨by decide, by decide, by decide,
    changePct_formula "AAPL" demoRaw initState ⟨3, 99⟩ ⟨2, 101⟩
      (by decide) (by decide) (by decide)⟩

/-! ### C4: insufficient history -/

unseal List.merge List.mergeSort in
/-- C4 counterexample: with a recognizable series of a single sample, no
snapshot (hence no non-numeric `changePct`) is stored at all; instead the
out-of-range element access fails inside the `try`, and the `catch` records a
clean, non-empty per-symbol error while removing any snapshot. -/
theorem insufficient_history_cex :
    fetchOutcome "AAPL" (.payload (some oneSample)) = .error undefinedCloseMsg ∧
    (fetchStock "AAPL" (.payload (some oneSample)) initState).dataMap "AAPL" = none ∧
    (fetchStock "AAPL" (.payload (some oneSample)) initState).errorMap "AAPL" =
      some undefinedCloseMsg ∧
    undefinedCloseMsg ≠ "" := by
  refine ⟨by decide, by decide, by decide, by decide⟩

/-- C4 amended: for every fetch whose response contains a recognizable time
series with fewer than two samples, the unguarded percent-change computation
fails by reading a property of an out-of-range (`undefined`) element; the
failure is caught by the per-symbol handler, so the outcome is a clean
non-empty per-symbol error with no stored snapshot (no NaN-valued `changePct`
is ever stored). -/
theorem insufficient_history_amended (sym : String) (st : AppState) (raw : List (Nat × ℚ))
    (hshort : (parsePoints raw).length < 2) :
    fetchOutcome sym (.payload (some raw)) = .error undefinedCloseMsg ∧
    (fetchStock sym (.payload (some raw)) st).dataMap sym = none ∧
    (fetchStock sym (.payload (some raw)) st).errorMap sym = some undefinedCloseMsg ∧
    undefinedCloseMsg ≠ "" := by
  have h2 : jsGet (parsePoints raw) (((parsePoints raw).length : Int) - 2) = none := by
    unfold jsGet
    rw [if_pos (by omega : ((parsePoints raw).length : Int) - 2 < 0)]
  have hout : fetchOutcome sym (.payload (some raw)) = .error undefinedCloseMsg := by
    simp only [fetchOutcome, computeSnapshot]
    rw [h2]
    cases jsGet (parsePoints raw) (((parsePoints raw).length : Int) - 1) <;> rfl
  refine ⟨hout, ?_, ?_, by decide⟩
  · simp [fetchStock, applyOutcome, hout]
  · simp [fetchStock, applyOutcome, hout, fetchStart]

unseal List.merge List.mergeSort in
/-- C4 amended witness: the single-sample series. -/
theorem insufficient_history_amended_witness :
    (parsePoints oneSample).length < 2 ∧
    (fetchOutcome "MSFT" (.payload (some oneSample)) = .error undefinedCloseMsg ∧
    (fetchStock "MSFT" (.payload (some oneSample)) initState).dataMap "MSFT" = none ∧
    (fetchStock "MSFT" (.payload (some oneSample)) initState).errorMap "MSFT" =
      some undefinedCloseMsg ∧
    undefinedCloseMsg ≠ "") :=
  ⟨by decide, insufficient_history_amended "MSFT" initState oneSample (by decide)⟩

/-! ### C8: stored-snapshot invariant -/

/-- C8: every snapshot produced by a successful fetch has its history sorted
non-decreasing by timestamp, its `latestClose` equal to the close of the last
history element, and is the value stored under the symbol in `dataMap`. -/
theorem snapshot_invariant (sym : String) (resp : FetchResponse) (st : AppState)
    (d : StockData) (hok : fetchOutcome sym resp = .ok d) :
    (d.history.map TimePoint.time).Sorted (· ≤ ·) ∧
    Option.map TimePoint.close d.history.getLast? = some d.latestClose ∧
    (fetchStock sym resp st).dataMap sym = some d := by
  have hstore : (fetchStock sym resp st).dataMap sym = some d := by
    simp [fetchStock, applyOutcome, hok]
  cases resp with
  | netError msg => simp [fetchOutcome] at hok
  | payload o =>
    cases o with
    | none => simp [fetchOutcome] at hok
    | some raw =>
      simp only [fetchOutcome, computeSnapshot] at hok
      cases h1 : jsGet (parsePoints raw) (((parsePoints raw).length : Int) - 1) with
      | none => rw [h1] at hok; cases hok
      | some last =>
        cases h2 : jsGet (parsePoints raw) (((parsePoints raw).length : Int) - 2) with
        | none => rw [h1, h2] at hok; exact absurd hok (by simp)
        | some prev =>
          rw [h1, h2] at hok
          simp only [Except.ok.injEq] at hok
          subst hok
          refine ⟨?_, ?_, hstore⟩
          · rw [List.Sorted, List.pairwise_map]
            exact (parsePoints_pairwise raw).imp fun h => by
              simpa [ptLe] using h
          · rw [jsGet_last_eq (parsePoints raw) last h1]
            rfl

unseal List.merge List.mergeSort in
/-- C8 witness: the spec scenario series stores a snapshot whose history is
time-sorted and whose `latestClose` is the close of its final sample. -/
theorem snapshot_invariant_witness :
    fetchOutcome "AAPL" (.payload (some demoRaw)) =
      .ok { symbol := "AAPL"
            latestClose := 99
            changePct := ((99 : ℚ) - 101) / 101 * 100
            history := [⟨1, 100⟩, ⟨2, 101⟩, ⟨3, 99⟩] } ∧
    ((([(⟨1, 100⟩ : TimePoint), ⟨2, 101⟩, ⟨3, 99⟩].map TimePoint.time).Sorted (· ≤ ·)) ∧
     Option.map TimePoint.close [(⟨1, 100⟩ : TimePoint), ⟨2, 101⟩, ⟨3, 99⟩].getLast? =
       some 99 ∧
     (fetchStock "AAPL" (.payload (some demoRaw)) initState).dataMap "AAPL" =
       some { symbol := "AAPL"
              latestClose := 99
              changePct := ((99 : ℚ) - 101) / 101 * 100
              history := [⟨1, 100⟩, ⟨2, 101⟩, ⟨3, 99⟩] }) :=
  ⟨rfl,
    snapshot_invariant "AAPL" (.payload (some demoRaw)) initState
      { symbol := "AAPL"
        latestClose := 99
        changePct := ((99 : ℚ) - 101) / 101 * 100
        history := [⟨1, 100⟩, ⟨2, 101⟩, ⟨3, 99⟩] }
      rfl⟩

/-! ### C3: fetch failure handling -/

/-- C3: a failed fetch for symbol `sym` (network error, missing payload, or
parse error — any outcome whose thrown message `msg` is non-empty) removes any
previously stored snapshot for `sym` and records `msg` as the non-empty error
for `sym`; a subsequent successful fetch for `sym` leaves the error for `sym`
cleared (the empty string written by the fetch prologue). -/
theorem fetch_failure_spec (sym : String) (st : AppState) (resp resp2 : FetchResponse)
    (msg : String) (d : StockData)
    (hfail : fetchOutcome sym resp = .error msg) (hmsg : msg ≠ "")
    (hsucc : fetchOutcome sym resp2 = .ok d) :
    (fetchStock sym resp st).dataMap sym = none ∧
    (fetchStock sym resp st).errorMap sym = some msg ∧ msg ≠ "" ∧
    (fetchStock sym resp2 (fetchStock sym resp st)).errorMap sym = some "" ∧
    (fetchStock sym resp2 (fetchStock sym resp st)).dataMap sym = some d := by
  refine ⟨?_, ?_, hmsg, ?_, ?_⟩
  · simp [fetchStock, applyOutcome, hfail]
  · simp [fetchStock, applyOutcome, hfail, fetchStart]
  · simp [fetchStock, applyOutcome, hsucc, fetchStart]
  · simp [fetchStock, applyOutcome, hsucc]

unseal List.merge List.mergeSort in
/-- C3 witness: a missing payload for AAPL wipes the snapshot and records the
non-empty message `"No data for AAPL"`; a following successful fetch of the
scenario series stores a snapshot with the error slot cleared. -/
theorem fetch_failure_spec_witness :
    fetchOutcome "AAPL" (.payload none) = .error "No data for AAPL" ∧
    "No data for AAPL" ≠ "" ∧
    fetchOutcome "AAPL" (.payload (some demoRaw)) =
      .ok { symbol := "AAPL"
            latestClose := 99
            changePct := ((99 : ℚ) - 101) / 101 * 100
            history := [⟨1, 100⟩, ⟨2, 101⟩, ⟨3, 99⟩] } ∧
    ((fetchStock "AAPL" (.payload none) initState).dataMap "AAPL" = none ∧
     (fetchStock "AAPL" (.payload none) initState).errorMap "AAPL" =
       some "No data for AAPL" ∧ "No data for AAPL" ≠ "" ∧
     (fetchStock "AAPL" (.payload (some demoRaw))
        (fetchStock "AAPL" (.payload none) initState)).errorMap "AAPL" = some "" ∧
     (fetchStock "AAPL" (.payload (some demoRaw))
        (fetchStock "AAPL" (.payload none) initState)).dataMap "AAPL" =
       some { symbol := "AAPL"
              latestClose := 99
              changePct := ((99 : ℚ) - 101) / 101 * 100
              history := [⟨1, 100⟩, ⟨2, 101⟩, ⟨3, 99⟩] }) :=
  ⟨rfl, by decide, rfl,
    fetch_failure_spec "AAPL" initState (.payload none) (.payload (some demoRaw))
      "No data for AAPL"
      { symbol := "AAPL"
        latestClose := 99
        changePct := ((99 : ℚ) - 101) / 101 * 100
        history := [⟨1, 100⟩, ⟨2, 101⟩, ⟨3, 99⟩] }
      rfl (by decide) rfl⟩

/-! ### C5: automatic retry after failure -/

/-- C5 counterexample: after a failed fetch for AAPL (a network error), the
fetch-trigger rule fires again for AAPL — the symbol is in the watchlist,
has no snapshot (the failure deleted it) and is not in flight (the `finally`
cleared the flag) — so a new fetch for the failed symbol IS initiated
automatically on the next effect run, contradicting the claim that nothing
is retried automatically. -/
theorem auto_retry_cex :
    shouldFetch (fetchStock "AAPL" (.netError "Network Error") initState) "AAPL" := by
  decide

/-- C5 amended: the fetch-trigger rule initiates a fetch for every watchlist
symbol lacking both a snapshot and an in-flight flag; a failed fetch leaves
its symbol in exactly that state, so every failed watchlist symbol is
automatically refetched whenever the trigger rule re-runs (the source
effectively auto-retries, as flagged by the spec's design notes). -/
theorem auto_retry_after_failure (sym : String) (st : AppState) (resp : FetchResponse)
    (msg : String) (hmem : sym ∈ st.symbols)
    (hfail : fetchOutcome sym resp = .error msg) :
    shouldFetch (fetchStock sym resp st) sym := by
  refine ⟨?_, ?_, ?_⟩
  · simpa [fetchStock, applyOutcome, hfail, fetchStart] using hmem
  · simp [fetchStock, applyOutcome, hfail]
  · simp [fetchStock, applyOutcome, hfail]

/-- C5 amended witness: the network-error fetch for AAPL in the initial
state. -/
theorem auto_retry_after_failure_witness :
    "AAPL" ∈ initState.symbols ∧
    fetchOutcome "AAPL" (.netError "Network Error") = .error "Network Error" ∧
    shouldFetch (fetchStock "AAPL" (.netError "Network Error") initState) "AAPL" :=
  ⟨by decide, rfl,
    auto_retry_after_failure "AAPL" initState (.netError "Network Error")
      "Network Error" (by decide) rfl⟩

/-! ### C6: query-changed behavior -/

/-- C6 counterexample: for the typed text `" a"` (one space, one letter) the
trimmed length is 1 < 2, so the claim demands that no suggestion request be
issued and that the suggestion list be cleared immediately; the code tests the
untrimmed `v.length >= 2`, issues a request for `" a"`, and leaves the
suggestion list untouched. -/
theorem query_change_cex :
    trimmedLength " a" < 2 ∧
    (handleQueryChange " a"
      { initState with suggestions := demoMatches }).2 = some " a" ∧
    (handleQueryChange " a"
      { initState with suggestions := demoMatches }).1.suggestions = demoMatches := by
  refine ⟨by decide, by decide, by decide⟩

/-- C6 amended: the query-changed operation stores the text verbatim and
issues a suggestion request if and only if the RAW (untrimmed) length of the
text is at least 2; when the raw length is below 2 the suggestion list is
cleared immediately and no request is made. -/
theorem query_change_spec (v : String) (st : AppState) :
    (handleQueryChange v st).1.query = v ∧
    (handleQueryChange v st).2 = (if 2 ≤ v.length then some v else none) ∧
    (handleQueryChange v st).1.suggestions =
      (if 2 ≤ v.length then st.suggestions else []) := by
  unfold handleQueryChange
  by_cases h : 2 ≤ v.length
  · simp [h]
  · simp [h]

/-! ### C7: idempotence of add -/

/-- C7: adding a symbol already in the watchlist leaves the watchlist (hence
its length) unchanged; adding a new symbol appends it at the end.  In
particular adding the same symbol twice in a row changes nothing the second
time. -/
theorem handleAdd_idempotent (sym : String) (st : AppState) :
    (handleAdd sym st).symbols =
      (if sym ∈ st.symbols then st.symbols else st.symbols ++ [sym]) ∧
    (handleAdd sym st).symbols.length =
      (if sym ∈ st.symbols then st.symbols.length else st.symbols.length + 1) ∧
    (handleAdd sym (handleAdd sym st)).symbols = (handleAdd sym st).symbols := by
  by_cases h : sym ∈ st.symbols
  · have hb : st.symbols.contains sym = true := by
      simp [List.contains, h]
    simp [handleAdd, hb, h]
  · have hb : st.symbols.contains sym = false := by
      rw [Bool.eq_false_iff]
      intro hcon
      apply h
      simp [List.contains] at hcon
      exact hcon
    have hmem2 : sym ∈ st.symbols ++ [sym] := List.mem_append_right _ (by simp)
    have hb2 : (st.symbols ++ [sym]).contains sym = true := by
      simp [List.contains, hmem2]
    simp [handleAdd, hb, hb2, h]

/-! ### C9: suggestion handling -/

/-- C9: a successful suggestion response replaces the list with at most its
first 5 matches in received order (a response of at most 5 matches is kept
whole, in order); a missing `bestMatches` field or any search failure yields
an empty suggestion list, and a failure changes nothing else (in particular no
error is surfaced: the error map and all other fields are untouched). -/
theorem fetchSuggestions_spec (st : AppState) (ms ms5 : List SearchMatch)
    (h5 : ms5.length ≤ 5) :
    (fetchSuggestions (.success (some ms)) st).suggestions = ms.take 5 ∧
    (fetchSuggestions (.success (some ms5)) st).suggestions = ms5 ∧
    (fetchSuggestions (.success none) st).suggestions = [] ∧
    (fetchSuggestions .failure st).suggestions = [] ∧
    (fetchSuggestions .failure st).errorMap = st.errorMap ∧
    (fetchSuggestions .failure st).dataMap = st.dataMap ∧
    (fetchSuggestions .failure st).symbols = st.symbols ∧
    (fetchSuggestions .failure st).query = st.query := by
  refine ⟨rfl, ?_, rfl, rfl, rfl, rfl, rfl, rfl⟩
  simp [fetchSuggestions, List.take_of_length_le h5]

/-- C9 witness: the spec scenario — the two mocked matches for query "app"
are kept exactly and in order. -/
theorem fetchSuggestions_spec_witness :
    demoMatches.length ≤ 5 ∧
    ((fetchSuggestions (.success (some demoMatches)) initState).suggestions =
        demoMatches.take 5 ∧
     (fetchSuggestions (.success (some demoMatches)) initState).suggestions =
        demoMatches ∧
     (fetchSuggestions (.success none) initState).suggestions = [] ∧
     (fetchSuggestions .failure initState).suggestions = [] ∧
     (fetchSuggestions .failure initState).errorMap = initState.errorMap ∧
     (fetchSuggestions .failure initState).dataMap = initState.dataMap ∧
     (fetchSuggestions .failure initState).symbols = initState.symbols ∧
     (fetchSuggestions .failure initState).query = initState.query) :=
  ⟨by decide, fetchSuggestions_spec initState demoMatches demoMatches (by decide)⟩

/-! ### C10: per-symbol frame property of fetches -/

/-- C10: a completed fetch for symbol `sym` modifies only the `sym` entries of
the snapshot, loading and error maps: for every other symbol the entries of
all three maps are unchanged, and the watchlist, selection set, sort flag,
query and suggestion list are unchanged regardless of outcome. -/
theorem fetch_frame (sym other : String) (resp : FetchResponse) (st : AppState)
    (hne : other ≠ sym) :
    (fetchStock sym resp st).dataMap other = st.dataMap other ∧
    (fetchStock sym resp st).loadingMap other = st.loadingMap other ∧
    (fetchStock sym resp st).errorMap other = st.errorMap other ∧
    (fetchStock sym resp st).symbols = st.symbols ∧
    (fetchStock sym resp st).selected = st.selected ∧
    (fetchStock sym resp st).sortAsc = st.sortAsc ∧
    (fetchStock sym resp st).query = st.query ∧
    (fetchStock sym resp st).suggestions = st.suggestions := by
  cases hout : fetchOutcome sym resp with
  | ok d => simp [fetchStock, applyOutcome, fetchStart, hout, hne]
  | error msg => simp [fetchStock, applyOutcome, fetchStart, hout, hne]

/-- C10 witness: a fetch for AAPL leaves every MSFT entry and all global
fields unchanged. -/
theorem fetch_frame_witness :
    ("MSFT" : String) ≠ "AAPL" ∧
    ((fetchStock "AAPL" (.payload none) initState).dataMap "MSFT" =
        initState.dataMap "MSFT" ∧
     (fetchStock "AAPL" (.payload none) initState).loadingMap "MSFT" =
        initState.loadingMap "MSFT" ∧
     (fetchStock "AAPL" (.payload none) initState).errorMap "MSFT" =
        initState.errorMap "MSFT" ∧
     (fetchStock "AAPL" (.payload none) initState).symbols = initState.symbols ∧
     (fetchStock "AAPL" (.payload none) initState).selected = initState.selected ∧
     (fetchStock "AAPL" (.payload none) initState).sortAsc = initState.sortAsc ∧
     (fetchStock "AAPL" (.payload none) initState).query = initState.query ∧
     (fetchStock "AAPL" (.payload none) initState).suggestions =
        initState.suggestions) :=
  ⟨by decide, fetch_frame "AAPL" "MSFT" (.payload none) initState (by decide)⟩

/-! ### C2: sorted-rows view -/

/-- C2: for every state, the sorted-rows view contains exactly the watchlist
symbols that currently have a snapshot, and their `latestClose` values form a
monotonic sequence — non-decreasing when the sort flag is ascending,
non-increasing when it is descending. -/
theorem sortedRows_spec (st : AppState) :
    (∀ x, x ∈ sortedRows st ↔ x ∈ st.symbols ∧ (st.dataMap x).isSome = true) ∧
    ((sortedRows st).map (priceOf st)).Sorted
      (fun a b => if st.sortAsc then a ≤ b else b ≤ a) := by
  constructor
  · intro x
    rw [sortedRows, List.mem_mergeSort, List.mem_filter]
  · have hpw : (sortedRows st).Pairwise (fun a b => rowLe st a b = true) := by
      apply List.sorted_mergeSort
      · intro a b c h1 h2
        unfold rowLe at *
        by_cases hs : st.sortAsc
        · simp only [if_pos hs, decide_eq_true_eq] at *
          exact le_trans h1 h2
        · simp only [if_neg hs, decide_eq_true_eq] at *
          exact le_trans h2 h1
      · intro a b
        unfold rowLe
        by_cases hs : st.sortAsc
        · simp only [if_pos hs, Bool.or_eq_true, decide_eq_true_eq]
          exact le_total _ _
        · simp only [if_neg hs, Bool.or_eq_true, decide_eq_true_eq]
          exact le_total _ _
    rw [List.Sorted, List.pairwise_map]
    refine hpw.imp ?_
    intro a b hab
    unfold rowLe at hab
    by_cases hs : st.sortAsc
    · rw [if_pos hs] at hab
      rw [if_pos hs]
      exact decide_eq_true_eq.mp hab
    · rw [if_neg hs] at hab
      rw [if_neg hs]
      exact decide_eq_true_eq.mp hab
